/-
Verification of the discovery-and-extraction pipeline of the
AutomatedFundraising repository (fundraising_app).

The Python sources are shallowly embedded: dictionaries become structures,
machine floats that only move through arithmetic become rationals, Python
integers become Lean integers (`int(float(n))` round-trips are modelled as
exact on the integer inputs considered here), and transcendental helpers
implemented with `math.sin`/`math.cos`/`math.atan2` (haversine distances,
metres-per-degree-of-longitude) are kept as explicit function parameters of
the definitions that call them, so every theorem quantifies over them.
Network calls (SerpAPI, Google Places, Apollo, the LLM planner) are modelled
as parameters supplying their results, and wall-clock deadline checks are
modelled as boolean-valued functions of the check site.
-/
import Mathlib

namespace AutoFund

/-- Python's floor division `//` on integers. -/
def pyFloorDiv (a b : Int) : Int := Int.fdiv a b

/-- Boolean list-prefix test used to build the substring test below. -/
def listPrefixB : List Char → List Char → Bool
  | [], _ => true
  | _ :: _, [] => false
  | a :: as, b :: bs => a = b && listPrefixB as bs

/-- Boolean sublist-of-consecutive-elements test (needle, haystack). -/
def listSubB (needle : List Char) : List Char → Bool
  | [] => listPrefixB needle []
  | c :: rest => listPrefixB needle (c :: rest) || listSubB needle rest

/-- Model of Python's `needle in hay` substring test on strings. -/
def strHas (hay needle : String) : Bool := listSubB needle.toList hay.toList

/-- Model of Python's `str.strip()` (drop leading and trailing whitespace),
written on character lists so that it is structurally recursive. -/
def pyStrip (s : String) : String :=
  String.mk (((s.toList.dropWhile Char.isWhitespace).reverse.dropWhile
    Char.isWhitespace).reverse)

/-- Model of Python's `str.lower()` (the inputs of this code base are
ASCII, where `Char.toLower` agrees with Python). -/
def pyLower (s : String) : String := String.mk (s.toList.map Char.toLower)

/-- Model of Python's `str.upper()`. -/
def pyUpper (s : String) : String := String.mk (s.toList.map Char.toUpper)

/-- Model of Python's `str.strip().lower()` combination used throughout. -/
def pyStripLower (s : String) : String := pyLower (pyStrip s)

/-- Model of Python's `a or b` on strings (`a` unless it is falsy). -/
def pyOr (a b : String) : String := if a ≠ "" then a else b

/- ------------------------------------------------------------------
Score normalization (discover.py `_normalize_min_score`,
`_normalize_org_score`, `_ui_score`; llm_assist.py `_score_10`,
`_score_100`), restricted to their integer-input paths: the string
parsing / exception branches of the sources accept non-integer inputs
that the claims under study do not quantify over.
------------------------------------------------------------------ -/

/-- discover.py `_normalize_min_score` on an integer input.
`int(float(str(n)))` round-trips to `n`; `score or 1` maps 0 to 1. -/
def normalizeMinScore (score : Int) : Int :=
  if score > 10 then max 1 (min 10 (pyFloorDiv (score + 9) 10))
  else max 1 (min 10 (if score = 0 then 1 else score))

/-- discover.py `_normalize_org_score` on an integer input.
`int(float(score or 0))` is the identity on integers. -/
def normalizeOrgScore (score : Int) : Int :=
  if score > 10 then max 1 (min 10 (pyFloorDiv (score + 9) 10))
  else score

/-- discover.py `_ui_score` on an integer input. -/
def uiScore (score : Int) : Int :=
  let n := normalizeOrgScore score
  if n ≤ 10 then n * 10 else n

/-- llm_assist.py `_score_10` on an integer input. -/
def score10 (score : Int) : Int :=
  if score > 10 then max 1 (min 10 (pyFloorDiv (score + 9) 10))
  else max 0 (min 10 score)

/-- llm_assist.py `_score_100` on an integer input. -/
def score100 (score : Int) : Int :=
  let n := score10 score
  if n ≤ 10 then n * 10 else n

/- ------------------------------------------------------------------
discover.py `run_discovery` deadline arithmetic (lines 742-744).
------------------------------------------------------------------ -/

/-- discover.py `run_discovery`:
`max_runtime = float(max_runtime_seconds if max_runtime_seconds not in
(None, "") else DISCOVERY_MAX_RUNTIME_SECONDS)` followed by
`deadline_ts = time.monotonic() + max(5.0, max_runtime)`.
`now` is the value of `time.monotonic()`, `override` the caller-supplied
`max_runtime_seconds` (`none` when absent), `envMax` the environment
default `DISCOVERY_MAX_RUNTIME_SECONDS`. -/
def discoveryDeadline (now : ℚ) (override : Option ℚ) (envMax : ℚ) : ℚ :=
  now + max 5 (override.getD envMax)

/- ------------------------------------------------------------------
Organization candidates and discover.py `_dedupe_orgs`.
Python dict fields absent or None are modelled by "" / none defaults,
matching the `str(org.get(k) or "")` accesses of the source.
------------------------------------------------------------------ -/

/-- Candidate organization record, covering the dict fields read by the
discovery filter stage of discover.py. -/
structure Org where
  name : String := ""
  website : String := ""
  category : String := ""
  donationPotentialScore : Int := 0
  address : String := ""
  city : String := ""
  state : String := ""
  postalCode : String := ""
  notes : String := ""
  latitude : Option ℚ := none
  longitude : Option ℚ := none
  googlePlaceId : String := ""
  googlePrimaryType : String := ""
  googleTypes : List String := []
  locationHintApplied : Bool := false
  source : String := ""
deriving DecidableEq, Repr

/-- The `(lowercased stripped name, lowercased stripped website)` pair used
as the dedup key by discover.py `_dedupe_orgs`. -/
def orgPairKey (org : Org) : String × String :=
  (pyStripLower org.name, pyStripLower org.website)

/-- Loop body of discover.py `_dedupe_orgs`: skip empty names, skip keys
already seen, keep first occurrences in order. -/
def dedupeOrgsAux : List Org → List (String × String) → List Org
  | [], _ => []
  | org :: rest, seen =>
    let key := orgPairKey org
    if key.1 = "" then dedupeOrgsAux rest seen
    else if key ∈ seen then dedupeOrgsAux rest seen
    else org :: dedupeOrgsAux rest (key :: seen)

/-- discover.py `_dedupe_orgs`. -/
def dedupeOrgs (orgs : List Org) : List Org := dedupeOrgsAux orgs []

/- ------------------------------------------------------------------
discover.py: the filtering stage of `run_discovery` (lines 801-822)
and the helpers it calls.
------------------------------------------------------------------ -/

/-- discover.py `_normalize_result_limit`.  `int(limit or 100)` maps 0 (and
an absent value) to 100; the result is clamped to `[1, 1000]`. -/
def normalizeResultLimit (limit : Option Int) : Nat :=
  (max 1 (min (match limit with
    | none => 100
    | some n => if n = 0 then 100 else n) 1000)).toNat

/-- discover.py `_normalize_discovery_mode`:
`str(mode or "businesses").strip().lower().replace("-", "_")` followed by
an alias-table lookup defaulting to `"businesses"`.  The single-character
`replace` is modelled character-wise. -/
def normalizeDiscoveryMode (mode : Option String) : String :=
  let base := match mode with
    | none => "businesses"
    | some s => if s = "" then "businesses" else s
  let m := String.mk ((pyLower (pyStrip base)).toList.map
    (fun c => if c = '-' then '_' else c))
  if m = "all" then "all"
  else if m = "business" then "businesses"
  else if m = "businesses" then "businesses"
  else if m = "foundations" then "foundations"
  else if m = "foundation" then "foundations"
  else if m = "nonprofit" then "nonprofits"
  else if m = "nonprofits" then "nonprofits"
  else if m = "wealth" then "wealth_related"
  else if m = "wealth_related" then "wealth_related"
  else if m = "wealthrelated" then "wealth_related"
  else "businesses"

/-- discover.py `_matches_discovery_mode`. -/
def matchesDiscoveryMode (org : Org) (discoveryMode : Option String) : Bool :=
  let mode := normalizeDiscoveryMode discoveryMode
  if mode = "all" then true
  else
    let category := pyLower org.category
    let name := pyLower org.name
    let notes := pyLower org.notes
    let primaryType := pyLower org.googlePrimaryType
    let types := org.googleTypes.map pyLower
    let tokens := category :: primaryType :: types
    if mode = "foundations" then
      if category = "foundation" then true
      else if ["foundation", "charitable trust", "endowment"].any
          (fun k => strHas name k) then true
      else if types.contains "nonprofit_organization" &&
          strHas notes "foundation" then true
      else false
    else if mode = "nonprofits" then
      category = "nonprofit" || category = "foundation" ||
        types.contains "nonprofit_organization" || strHas notes "nonprofit"
    else if mode = "wealth_related" then
      let wealthTokens := ["bank", "accounting", "insurance_agency",
        "real_estate_agency", "lawyer", "financial", "financial_planner",
        "investment_service", "corporate_csr"]
      tokens.any (fun t => wealthTokens.contains t) ||
        ["capital", "wealth", "invest", "holdings", "advisors"].any
          (fun k => strHas name k)
    else
      if ["local_business", "corporate_csr", "pet_industry",
          "financial"].contains category then true
      else if category = "foundation" || category = "nonprofit" then false
      else true

/-- discover.py `_score_passes`. -/
def scorePasses (org : Org) (minScore10 : Int) : Bool :=
  normalizeOrgScore org.donationPotentialScore ≥ minScore10

/-- The parsed location filter produced by utils.py
`parse_search_location`; consumed read-only by the filtering stage.
`none` fields model Python `None`; they are also treated as absent when
they hold `""` (Python falsiness), matching the source's truthiness tests. -/
structure LocFilter where
  raw : String := ""
  zipCode : Option String := none
  city : Option String := none
  state : Option String := none
  query : Option String := none
deriving DecidableEq, Repr

/-- The geocoded search origin (utils.py `geocode_location` result). -/
structure Geo where
  latitude : ℚ
  longitude : ℚ
deriving DecidableEq, Repr

/-- discover.py `_extract_location_fields`.  The two `re.search` calls
(`City, ST` pattern and 5-digit ZIP pattern) are modelled by the oracle
parameters `csOracle` and `zipOracle` giving the match groups, `none` for
no match. -/
def extractLocationFields (csOracle : String → Option (String × String))
    (zipOracle : String → Option String) (org : Org) :
    String × String × String :=
  let city0 := pyStrip org.city
  let state0 := pyUpper (pyStrip org.state)
  let postal0 := pyStrip org.postalCode
  let text := org.address ++ " " ++ org.notes
  let cs :=
    if (city0 = "" || state0 = "") && text ≠ "" then
      match csOracle text with
      | some (c, s) =>
        (if city0 = "" then pyStrip c else city0,
         if state0 = "" then pyUpper s else state0)
      | none => (city0, state0)
    else (city0, state0)
  let postal :=
    if postal0 = "" && text ≠ "" then
      match zipOracle text with
      | some z => z
      | none => postal0
    else postal0
  (cs.1, cs.2, postal)

/-- The city/state tail of discover.py `_location_passes` (after the ZIP
branch). -/
def locationPassesCityState (org : Org) (f : LocFilter)
    (city state : String) : Bool :=
  let wantedCity := pyLower (f.city.getD "")
  let wantedState := pyLower (f.state.getD "")
  if wantedCity ≠ "" && pyLower city ≠ wantedCity then false
  else if wantedState ≠ "" && pyLower state ≠ wantedState then false
  else if city ≠ "" || state ≠ "" then true
  else if org.locationHintApplied then true
  else strHas (pyLower org.notes) (pyLower f.raw)

/-- utils.py `within_radius_miles`, whose haversine core runs on machine
floats with `math` trigonometry, is modelled as the function parameter
`wr`.  discover.py `_location_passes` (the ZIP branch runs only when the
parsed filter holds a non-empty `zip_code`, per Python truthiness). -/
def locationPasses (wr : Geo → Option ℚ → Option ℚ → Option ℚ → Bool)
    (csOracle : String → Option (String × String))
    (zipOracle : String → Option String)
    (org : Org) (f : LocFilter) (originGeo : Option Geo)
    (radiusMiles : Option ℚ) : Bool :=
  if f.raw = "" then true
  else if (match originGeo with
      | some g => wr g org.latitude org.longitude radiusMiles
      | none => false) then true
  else
    let (city, state, postal) := extractLocationFields csOracle zipOracle org
    match f.zipCode with
    | some z =>
      if z = "" then
        locationPassesCityState org f city state
      else
        let searchable :=
          pyLower (postal ++ " " ++ org.address ++ " " ++ org.notes)
        strHas searchable (pyLower z)
    | none => locationPassesCityState org f city state

/-- discover.py `_stable_org_record_key`. -/
def stableOrgRecordKey (org : Org) : String :=
  let placeId := pyStripLower org.googlePlaceId
  if placeId ≠ "" then "organization|google_place|" ++ placeId
  else
    "organization|" ++ String.intercalate "|"
      [pyStripLower org.name, pyStripLower org.website,
       pyStripLower org.address, pyStripLower org.city,
       pyStripLower org.state]

/-- The inputs of the `run_discovery` filtering stage: the normalized
request parameters together with the collaborator results (parsed location
filter, geocoded origin, candidate list) that lines 801-822 consume. -/
structure FilterStageParams where
  wr : Geo → Option ℚ → Option ℚ → Option ℚ → Bool
  csOracle : String → Option (String × String)
  zipOracle : String → Option String
  discoveryMode : Option String
  minScore10 : Int
  locFilter : LocFilter
  originGeo : Option Geo
  radiusMiles : Option ℚ
  existingKeys : List String
  excludedKeys : List String
  limitN : Nat

/-- One candidate passes every filter of the loop body (discover.py
`run_discovery` lines 806-815): discovery mode, score floor, location, and
neither of the two key sets contains its stable key. -/
def candidateAdmitted (p : FilterStageParams) (org : Org) : Bool :=
  matchesDiscoveryMode org p.discoveryMode &&
  scorePasses org p.minScore10 &&
  locationPasses p.wr p.csOracle p.zipOracle org p.locFilter p.originGeo
    p.radiusMiles &&
  !(p.existingKeys ≠ [] && p.existingKeys.contains (stableOrgRecordKey org)) &&
  !(p.excludedKeys ≠ [] && p.excludedKeys.contains (stableOrgRecordKey org))

/-- The matching loop of discover.py `run_discovery` (lines 801-822):
walks candidates in order, checks the global deadline before each unit of
work (`deadline idx` models `time.monotonic() >= deadline_ts` at iteration
`idx`), applies the discovery-mode, score and location filters in that
order, then the persisted-key and excluded-key drops, and stops as soon as
`limit_n` matches have been collected. -/
def discoveryFilterGo (p : FilterStageParams) (deadline : Nat → Bool) :
    List Org → Nat → List Org → List Org
  | [], _, acc => acc.reverse
  | org :: rest, idx, acc =>
    if deadline idx then acc.reverse
    else if !matchesDiscoveryMode org p.discoveryMode then
      discoveryFilterGo p deadline rest (idx + 1) acc
    else if !scorePasses org p.minScore10 then
      discoveryFilterGo p deadline rest (idx + 1) acc
    else if !locationPasses p.wr p.csOracle p.zipOracle org p.locFilter
        p.originGeo p.radiusMiles then
      discoveryFilterGo p deadline rest (idx + 1) acc
    else if p.existingKeys ≠ [] &&
        p.existingKeys.contains (stableOrgRecordKey org) then
      discoveryFilterGo p deadline rest (idx + 1) acc
    else if p.excludedKeys ≠ [] &&
        p.excludedKeys.contains (stableOrgRecordKey org) then
      discoveryFilterGo p deadline rest (idx + 1) acc
    else
      let acc' := org :: acc
      if p.limitN ≤ acc'.length then acc'.reverse
      else discoveryFilterGo p deadline rest (idx + 1) acc'

/-- The `matched` list computed by the filtering stage of
discover.py `run_discovery` for a candidate list. -/
def runDiscoveryMatched (p : FilterStageParams) (deadline : Nat → Bool)
    (candidates : List Org) : List Org :=
  discoveryFilterGo p deadline candidates 1 []

/-- The caller-supplied `exclude_record_keys` normalization of
`run_discovery` line 748:
`{str(x).strip().lower() for x in (exclude_record_keys or []) if
str(x).strip()}`. -/
def normalizeExcludedKeys (keys : List String) : List String :=
  (keys.filter (fun x => pyStrip x ≠ "")).map pyStripLower

/-- The filtering stage of discover.py `run_discovery` with the raw
request parameters, applying the same normalizations the function applies
before its matching loop (`_normalize_result_limit`,
`_normalize_min_score`, the excluded-key set comprehension). -/
def runDiscoveryFilterStage
    (wr : Geo → Option ℚ → Option ℚ → Option ℚ → Bool)
    (csOracle : String → Option (String × String))
    (zipOracle : String → Option String)
    (discoveryMode : Option String) (minScore : Int) (limit : Option Int)
    (locFilter : LocFilter) (originGeo : Option Geo)
    (radiusMiles : Option ℚ) (existingKeys excludeRecordKeys : List String)
    (deadline : Nat → Bool) (candidates : List Org) : List Org :=
  runDiscoveryMatched
    { wr := wr
      csOracle := csOracle
      zipOracle := zipOracle
      discoveryMode := discoveryMode
      minScore10 := normalizeMinScore minScore
      locFilter := locFilter
      originGeo := originGeo
      radiusMiles := radiusMiles
      existingKeys := existingKeys
      excludedKeys := normalizeExcludedKeys excludeRecordKeys
      limitN := normalizeResultLimit limit } deadline candidates

/- ------------------------------------------------------------------
extract_contacts.py: contact deduplication and the two output paths.
The HTML/Apollo/Playwright sources themselves are network and parser
code; each is modelled as a parameter supplying its resulting contact
list, so every theorem quantifies over all possible source outputs.
------------------------------------------------------------------ -/

/-- Contact candidate dict as produced by the extraction sources.  Python
`None` string fields are modelled by `""` (the source reads every field
through `str(c.get(k) or "")`). -/
structure Contact where
  fullName : String := ""
  title : String := ""
  email : String := ""
  phone : String := ""
  justification : String := ""
  confidence : String := ""
  apollo : Bool := false
deriving DecidableEq, Repr

/-- extract_contacts.py `PRIORITY_TITLES`. -/
def priorityTitles : List String :=
  ["chief executive", "ceo", "president", "executive director",
   "director of development", "director of giving", "vp of csr",
   "philanthropy", "corporate responsibility", "community relations",
   "communications", "outreach", "donations", "grants", "foundation",
   "partnerships", "marketing director", "cmo"]

/-- extract_contacts.py `score_title`: position of the first matching
priority keyword, counted from the end of the list; 0 when none match. -/
def scoreTitleGo (titleLower : String) : List String → Nat → Nat
  | [], _ => 0
  | kw :: rest, remaining =>
    if strHas titleLower kw then remaining
    else scoreTitleGo titleLower rest (remaining - 1)

/-- extract_contacts.py `score_title`
(`len(PRIORITY_TITLES) - i` for the first keyword index `i` that occurs in
the lowercased title, else 0). -/
def scoreTitle (title : String) : Nat :=
  scoreTitleGo (pyLower title) priorityTitles priorityTitles.length

/-- The composite ranking score of extract_contacts.py
`_dedupe_contacts_for_org` (+5 Apollo, +3 email, +2 phone, title priority
capped at 5). -/
def contactRankScore (c : Contact) : Nat :=
  (if c.apollo then 5 else 0) +
  (if pyStripLower c.email ≠ "" then 3 else 0) +
  (if c.phone ≠ "" then 2 else 0) +
  min 5 (scoreTitle c.title)

/-- Filtering/dedup pass of extract_contacts.py `_dedupe_contacts_for_org`:
drop contacts whose stripped email and name are both empty, drop repeated
`email|name|title` keys, and pair each survivor with its ranking score. -/
def dedupeContactsGo : List Contact → List String → List (Nat × Contact)
  | [], _ => []
  | c :: rest, seen =>
    let email := pyStripLower c.email
    let fullName := pyStripLower c.fullName
    let title := pyStripLower c.title
    if email = "" && fullName = "" then dedupeContactsGo rest seen
    else
      let key := email ++ "|" ++ fullName ++ "|" ++ title
      if seen.contains key then dedupeContactsGo rest seen
      else (contactRankScore c, c) :: dedupeContactsGo rest (key :: seen)

/-- extract_contacts.py `_dedupe_contacts_for_org`.  Python's stable
`list.sort(key=first, reverse=True)` is modelled by the stable insertion
sort with the ≥-on-score relation. -/
def dedupeContactsForOrg (contacts : List Contact) : List Contact :=
  ((dedupeContactsGo contacts []).insertionSort
    (fun a b => b.1 ≤ a.1)).map (·.2)

/-- Per-organization contact assembly of extract_contacts.py
`run_extraction` (lines 582-600): Apollo results deduplicated first,
static-scrape results appended when a website exists, the Playwright
fallback only when nothing was found, a website exists and the deadline
has not passed, and a final dedup pass.  `apolloC`, `staticC`, `playC`
supply the three sources' outputs and `deadlineHit` models
`_deadline_reached` at the fallback check. -/
def runExtractionOrgContacts (apolloC staticC playC : List Contact)
    (website : String) (deadlineHit : Bool) : List Contact :=
  let contacts1 := dedupeContactsForOrg apolloC
  let contacts2 := if website ≠ "" then contacts1 ++ staticC else contacts1
  let contacts3 :=
    if contacts2.isEmpty && website ≠ "" && !deadlineHit then playC
    else contacts2
  dedupeContactsForOrg contacts3

/-- Organization metadata consumed by the preview path
(extract_contacts.py `extract_contacts_preview_for_orgs`). -/
structure PreviewOrg where
  previewKey : String := ""
  orgId : String := ""
  name : String := ""
  website : String := ""
  address : String := ""
  city : String := ""
  state : String := ""
  postalCode : String := ""
  donationPotentialScore : Int := 0
deriving DecidableEq, Repr

/-- One preview output record: the contact dict spread into a row with
org metadata and a role category (`{**contact, ...}`; the added keys do
not overlap the contact's own fields). -/
structure PreviewRecord where
  contact : Contact
  recordKey : String
  category : String
  organizationName : String
  orgPreviewKey : String
  donationPotentialScore : Int
deriving DecidableEq, Repr

/-- extract_contacts.py `classify_contact_role`. -/
def classifyContactRole (title : String) : String :=
  let t := pyStripLower title
  if t = "" then "General Contact"
  else if ["owner", "founder", "co-founder", "principal"].any
      (fun k => strHas t k) then "Business Owner"
  else if ["philanthropy", "giving", "development", "donations", "grants",
      "foundation"].any (fun k => strHas t k) then "Giving Manager"
  else if ["ceo", "chief executive", "president", "executive director",
      "director"].any (fun k => strHas t k) then "Executive Leader"
  else if ["community", "outreach", "partnership", "communications",
      "marketing"].any (fun k => strHas t k) then
    "Community / Outreach Lead"
  else "Prospective Contact"

/-- Inner record loop of the preview path (extract_contacts.py lines
659-686): walks the first `per_org_limit` deduplicated contacts of one
organization, returning early when the deadline trips, skipping contacts
whose email is already persisted, whose email and name are both empty, or
whose per-run dedup key was already seen. -/
def previewRecordLoop (existingEmails : List String)
    (deadlineHit : Nat → Bool) (orgKey : String) (org : PreviewOrg) :
    List Contact → Nat → List String → List PreviewRecord →
    List String × List PreviewRecord × Bool
  | [], _, seenKeys, acc => (seenKeys, acc.reverse, false)
  | c :: rest, cIdx, seenKeys, acc =>
    if deadlineHit cIdx then (seenKeys, acc.reverse, true)
    else
      let email := pyStripLower c.email
      let fullName := pyStrip c.fullName
      if email ≠ "" && existingEmails.contains email then
        previewRecordLoop existingEmails deadlineHit orgKey org rest
          (cIdx + 1) seenKeys acc
      else
        let dedupeKey := orgKey ++ "|" ++ pyOr email fullName ++ "|" ++
          pyStripLower c.title
        if (email = "" && fullName = "") || seenKeys.contains dedupeKey then
          previewRecordLoop existingEmails deadlineHit orgKey org rest
            (cIdx + 1) seenKeys acc
        else
          let title := pyOr c.title "General Contact"
          let record : PreviewRecord :=
            { contact := c
              recordKey := "contact:" ++ dedupeKey
              category := classifyContactRole title
              organizationName := org.name
              orgPreviewKey := orgKey
              donationPotentialScore := org.donationPotentialScore }
          previewRecordLoop existingEmails deadlineHit orgKey org rest
            (cIdx + 1) (dedupeKey :: seenKeys) (record :: acc)

/-- Per-organization deadline flags and source outputs for the preview
path: `d1`-`d3` model the `_deadline_reached` checks between stages, `d4`
the additional check inside the Playwright-fallback condition, `inner`
the per-record checks, and `apolloC`/`staticC`/`playC` the three sources'
results for this organization. -/
structure PreviewOrgStep where
  org : PreviewOrg
  d1 : Bool := false
  d2 : Bool := false
  d3 : Bool := false
  d4 : Bool := false
  inner : Nat → Bool := fun _ => false
  apolloC : List Contact := []
  staticC : List Contact := []
  playC : List Contact := []

/-- extract_contacts.py `extract_contacts_preview_for_orgs`: the outer
loop over organizations, threading the cross-organization `seen_keys` set
and stopping early on any tripped deadline.  `per_org_limit or 5` maps 0
to the default 5 before the `max 1` clamp. -/
def previewOrgsGo (existingEmails : List String) (perOrgLimit : Nat) :
    List PreviewOrgStep → List String → List PreviewRecord →
    List PreviewRecord
  | [], _, acc => acc
  | step :: rest, seenKeys, acc =>
    if step.d1 then acc
    else
      let website := pyStrip step.org.website
      let orgKey := pyStrip (pyOr step.org.previewKey
        (pyOr step.org.orgId step.org.name))
      if orgKey = "" then
        previewOrgsGo existingEmails perOrgLimit rest seenKeys acc
      else if step.d2 then acc
      else
        let contacts0 :=
          if website ≠ "" then step.apolloC ++ step.staticC
          else step.apolloC
        if step.d3 then acc
        else
          let contacts1 :=
            if contacts0.isEmpty && website ≠ "" && !step.d4 then
              step.playC
            else contacts0
          let contacts := dedupeContactsForOrg contacts1
          let taken := contacts.take
            (max 1 (if perOrgLimit = 0 then 5 else perOrgLimit))
          let res := previewRecordLoop existingEmails step.inner orgKey
            step.org taken 1 seenKeys []
          if res.2.2 then acc ++ res.2.1
          else previewOrgsGo existingEmails perOrgLimit rest res.1
            (acc ++ res.2.1)

/-- extract_contacts.py `extract_contacts_preview_for_orgs` (no DB
writes); `existingEmails` models `_load_existing_contact_emails()`. -/
def extractContactsPreviewForOrgs (existingEmails : List String)
    (perOrgLimit : Nat) (steps : List PreviewOrgStep) :
    List PreviewRecord :=
  previewOrgsGo existingEmails perOrgLimit steps [] []

/- ------------------------------------------------------------------
google_places.py `generate_search_tiles`.  Python floats become exact
rationals; the transcendental helpers `haversine_meters` (sin/cos/atan2
based) and `_meters_per_degree_lon` (cos based) are the explicit function
parameters `hav` and `mpdLon`.  `round(x, n)` is modelled as rounding to
the nearest multiple of `10^-n` (ties up).
------------------------------------------------------------------ -/

/-- Python `round(x, n)` on the exact-rational model of a float. -/
def roundTo (n : ℕ) (x : ℚ) : ℚ := ((⌊x * 10 ^ n + 1 / 2⌋ : ℤ) : ℚ) / 10 ^ n

/-- A search tile (`{"latitude": .., "longitude": .., "radius_m": ..}`). -/
structure Tile where
  latitude : ℚ
  longitude : ℚ
  radiusM : ℚ
deriving DecidableEq, Repr

/-- The 5-decimal dedup key of google_places.py `generate_search_tiles`. -/
def tileKey5 (t : Tile) : ℚ × ℚ := (roundTo 5 t.latitude, roundTo 5 t.longitude)

/-- The dedup loop of `generate_search_tiles`: keep grid tiles whose
round-5 key was not seen yet (the seed `seen` holds the origin's key). -/
def dedupeTilesAux : List Tile → List (ℚ × ℚ) → List Tile
  | [], _ => []
  | t :: rest, seen =>
    if tileKey5 t ∈ seen then dedupeTilesAux rest seen
    else t :: dedupeTilesAux rest (tileKey5 t :: seen)

/-- The raw square grid of `generate_search_tiles`: the two `while` loops
`lat = center - range; while lat <= center + range: lat += step` visit
exactly the points `center - range + k*step` for `0 ≤ k ≤ ⌊2*range/step⌋`
(steps are positive, see `generateSearchTiles`); a tile is kept when the
`hav` distance of its pre-rounding center from the origin is at most
`radius + tile_radius`, and its stored coordinates are the centers rounded
to 7 decimals. -/
def rawGridTiles (hav : ℚ → ℚ → ℚ → ℚ → ℚ)
    (centerLat centerLng radiusM tileR latStep lonStep latRange lonRange :
      ℚ) : List Tile :=
  (List.range (⌊2 * latRange / latStep⌋ + 1).toNat).flatMap (fun (i : ℕ) =>
    (List.range (⌊2 * lonRange / lonStep⌋ + 1).toNat).filterMap
      (fun (j : ℕ) =>
        let lat := centerLat - latRange + (i : ℚ) * latStep
        let lng := centerLng - lonRange + (j : ℚ) * lonStep
        if hav centerLat centerLng lat lng ≤ radiusM + tileR then
          some ⟨roundTo 7 lat, roundTo 7 lng, tileR⟩
        else none))

/-- google_places.py `generate_search_tiles`.  `hav` stands for
`haversine_meters` and `mpdLon` for `_meters_per_degree_lon`, both run on
floats with `math` trigonometry in the source.  The tile radius is clamped
to at least 250 m, so both step sizes are positive. -/
def generateSearchTiles (hav : ℚ → ℚ → ℚ → ℚ → ℚ) (mpdLon : ℚ → ℚ)
    (centerLat centerLng radiusM tileRadiusM : ℚ) : List Tile :=
  let tileR := max 250 tileRadiusM
  let latStep := tileR * (8 / 5) / 111320
  let lonStep := tileR * (8 / 5) / max 1 (mpdLon centerLat)
  let latRange := radiusM / 111320
  let lonRange := radiusM / max 1 (mpdLon centerLat)
  let tiles := rawGridTiles hav centerLat centerLng radiusM tileR latStep
    lonStep latRange lonRange
  let origin : Tile := ⟨centerLat, centerLng, tileR⟩
  origin :: dedupeTilesAux tiles [(roundTo 5 centerLat, roundTo 5 centerLng)]

/-- The concrete distance function used to instantiate `hav` in the
counterexample below: the L1 (equirectangular) metre distance
`111320 * (|Δlat| + |Δlon|)` — a standard flat-earth approximation of
haversine near the equator — with the absolute values written as
conditionals. -/
def havL1 (lat1 lon1 lat2 lon2 : ℚ) : ℚ :=
  111320 * ((if lat2 - lat1 < 0 then lat1 - lat2 else lat2 - lat1) +
    (if lon2 - lon1 < 0 then lon1 - lon2 else lon2 - lon1))

/-- The concrete metres-per-degree-of-longitude function used in the
counterexample: at the equator `111320 * cos(0) = 111320` exactly. -/
def mpdEquator (_ : ℚ) : ℚ := 111320

/- ------------------------------------------------------------------
google_places.py `discover_google_places_nearby`: the candidate
accumulation loop.  Per-tile API responses are supplied by the parameter
`supply` (`none` models a raised exception), deadline checks by the
boolean functions `gdl`/`sdl`, and `map_google_place_to_org` — a pure
per-element record mapping that cannot change the list length — is left
as the identity on the raw place record.
------------------------------------------------------------------ -/

/-- A Google Places result; only the `id` field steers the loop. -/
structure GPlace where
  id : String := ""
deriving DecidableEq, Repr

/-- google_places.py line 160: `max(1, min(int(result_limit or 100), 1000))`. -/
def clampResultLimit (limit : Int) : Int :=
  max 1 (min (if limit = 0 then 100 else limit) 1000)

/-- google_places.py line 172:
`target_candidates = min(max(result_limit * 4, 80), 4000)` applied to the
clamped result limit. -/
def targetCandidates (limit : Int) : Nat :=
  (min (max (clampResultLimit limit * 4) 80) 4000).toNat

/-- The target-candidate formula in the words of the spec
(`min(max(limit×4,80),1000)`, hard-capped at 4000), for comparison with
`targetCandidates`. -/
def specTargetCandidates (limit : Int) : Nat :=
  (min (min (max (limit * 4) 80) 1000) 4000).toNat

/-- Inner place loop of `discover_google_places_nearby` (lines 242-249):
skip empty or already-seen place ids, append the mapped place, and break
as soon as the target count is reached. -/
def gpPlacesLoop (target : Nat) : List GPlace → List String → List GPlace →
    List String × List GPlace
  | [], seen, out => (seen, out)
  | p :: rest, seen, out =>
    let placeId := pyStrip p.id
    if placeId = "" || seen.contains placeId then
      gpPlacesLoop target rest seen out
    else
      let out' := out ++ [p]
      if target ≤ out'.length then (placeId :: seen, out')
      else gpPlacesLoop target rest (placeId :: seen) out'

/-- Outer tile loop of `discover_google_places_nearby` (lines 194-249):
before each tile it checks the global deadline, the stage deadline and the
target count; a tile whose request raised (`supply idx = none`) bumps the
error counter and stops the stage after `max 1 maxTileErrors` errors. -/
def gpTilesLoop (gdl sdl : Nat → Bool) (supply : Nat → Option (List GPlace))
    (target maxTileErrors : Nat) :
    Nat → Nat → List String → List GPlace → Nat → List GPlace
  | 0, _, _, out, _ => out
  | n + 1, idx, seen, out, errs =>
    if gdl idx then out
    else if sdl idx then out
    else if target ≤ out.length then out
    else
      match supply idx with
      | none =>
        let errs' := errs + 1
        if max 1 maxTileErrors ≤ errs' then out
        else gpTilesLoop gdl sdl supply target maxTileErrors n (idx + 1)
          seen out errs'
      | some places =>
        gpTilesLoop gdl sdl supply target maxTileErrors n (idx + 1)
          (gpPlacesLoop target places seen out).1
          (gpPlacesLoop target places seen out).2 errs

/-- google_places.py `discover_google_places_nearby` restricted to its
candidate accumulation (`tileCount` is the length of the generated tile
list; the function returns `out`). -/
def discoverGooglePlacesNearby (gdl sdl : Nat → Bool)
    (supply : Nat → Option (List GPlace)) (limit : Int)
    (maxTileErrors tileCount : Nat) : List GPlace :=
  gpTilesLoop gdl sdl supply (targetCandidates limit) maxTileErrors
    tileCount 1 [] [] 0

/-- The id-supply used by the counterexample to C6: 1001 distinct
non-empty ids (`"b"`, `"ab"`, `"aab"`, ...) served by a single tile. -/
def gpCexIds : List String :=
  (List.range 1001).map (fun k => String.mk (List.replicate k 'a' ++ ['b']))

/-- The single-tile response list for the counterexample to C6. -/
def gpCexSupply : Nat → Option (List GPlace) :=
  fun idx => if idx = 1 then some (gpCexIds.map (fun s => { id := s })) else none

/- ------------------------------------------------------------------
llm_assist.py: query-family normalization (`_normalize_query_families`,
`_string_list`) and the heuristic fallback plan
(`_heuristic_source_plan`).  `plan_source_types` line 120 returns the
normalized LLM list when it is non-empty and the heuristic list
otherwise, so both lists below are exactly the `query_families` a
discovery run can observe.
------------------------------------------------------------------ -/

/-- A raw `query_families` entry of the parsed LLM JSON (non-dict entries,
skipped by the source, are not represented; a `priority` that is missing
or fails `int()` coercion is 0, as in the source's `except` branch). -/
structure QueryFamilyRaw where
  family : String := ""
  contributionMode : String := ""
  priority : Int := 0
  queries : List String := []
deriving DecidableEq, Repr

/-- A normalized query family. -/
structure QueryFamily where
  family : String := ""
  contributionMode : String := ""
  priority : Int := 0
  queries : List String := []
deriving DecidableEq, Repr

/-- llm_assist.py `_string_list`: strip items, drop empties, stop once
`max_items` entries were collected (the append happens before the length
check, matching the source). -/
def stringListGo (maxItems : Nat) (acc : List String) :
    List String → List String
  | [] => acc.reverse
  | s :: rest =>
    let t := pyStrip s
    if t = "" then stringListGo maxItems acc rest
    else
      let acc' := t :: acc
      if maxItems ≤ acc'.length then acc'.reverse
      else stringListGo maxItems acc' rest

/-- llm_assist.py `_string_list`. -/
def stringList (maxItems : Nat) (l : List String) : List String :=
  stringListGo maxItems [] l

/-- The sort key of llm_assist.py `_normalize_query_families`:
`(x.get("priority") or 99, x.get("family") or "")` — Python falsiness
sends a priority of 0 to 99. -/
def qfKeyP (f : QueryFamily) : Int := if f.priority = 0 then 99 else f.priority

/-- The ordering induced by the sort key of `_normalize_query_families`
(lexicographic on the effective priority, then the family name). -/
def qfSortLe (a b : QueryFamily) : Prop :=
  qfKeyP a < qfKeyP b ∨ (qfKeyP a = qfKeyP b ∧ a.family ≤ b.family)

instance : DecidableRel qfSortLe := fun _ _ =>
  inferInstanceAs (Decidable (_ ∨ _))

/-- llm_assist.py `_normalize_query_families`: validate entries, clamp
priorities into `[0, 10]`, cap queries at 8, sort by the
`(priority or 99, family)` key (Python's stable sort is modelled by the
stable insertion sort) and keep at most 16 families. -/
def normalizeQueryFamilies (items : List QueryFamilyRaw) :
    List QueryFamily :=
  let families := items.filterMap (fun item =>
    let family := pyStrip item.family
    let queries := stringList 8 item.queries
    if family = "" || queries = [] then none
    else some ({ family := family
                 contributionMode := pyStrip item.contributionMode
                 priority := max 0 (min 10 item.priority)
                 queries := queries } : QueryFamily))
  (families.insertionSort qfSortLe).take 16

/-- The literal `query_families` list of llm_assist.py
`_heuristic_source_plan` (lines 283-289), in the order it is written. -/
def heuristicQueryFamilies : List QueryFamily :=
  [{ family := "sponsorships", contributionMode := "sponsorships",
     priority := 1,
     queries := ["local business event sponsorship nonprofit",
       "community sponsor animal rescue fundraiser"] },
   { family := "gift_cards_certificates", contributionMode := "gift_cards",
     priority := 2,
     queries := ["gift card donation raffle local business",
       "gift certificate donation nonprofit fundraiser"] },
   { family := "in_kind_goods", contributionMode := "in_kind_goods",
     priority := 2,
     queries := ["in kind goods donation local business nonprofit",
       "product donation animal shelter local store"] },
   { family := "in_kind_services", contributionMode := "in_kind_services",
     priority := 3,
     queries := ["donated services nonprofit fundraiser local",
       "pro bono services animal rescue organization"] },
   { family := "foundations_grants", contributionMode := "grants",
     priority := 1,
     queries := ["foundation grants animal welfare nonprofit",
       "community foundation grant rescue shelter"] }]

/-- llm_assist.py `_heuristic_source_plan`, restricted to the fields the
plan invariants quantify over (`source_buckets`, a list of explanation
dicts, is not consumed by any claim and is omitted). -/
structure SourcePlan where
  sourceTypes : List String := []
  queryFocusTerms : List String := []
  contributionModes : List String := []
  roleTargets : List String := []
  queryFamilies : List QueryFamily := []
  notes : String := ""
deriving Repr

/-- llm_assist.py `_heuristic_source_plan` (`mode` is
`str(criteria.get("discovery_mode") or "businesses").lower()` and
`radius` is `float(criteria.get("radius_miles") or 0)`). -/
def heuristicSourcePlan (mode : Option String) (radius : Option ℚ) :
    SourcePlan :=
  let m := pyLower (match mode with
    | none => "businesses"
    | some s => if s = "" then "businesses" else s)
  let r := match radius with | none => 0 | some q => q
  let sourceTypes :=
    if m = "wealth_related" then ["wealth_advisors", "businesses",
      "foundations"]
    else if m = "nonprofits" then ["nonprofits", "foundations", "grants",
      "municipal_programs"]
    else if m = "foundations" then ["foundations", "grants",
      "municipal_programs"]
    else if m = "all" then ["businesses", "nonprofits", "foundations",
      "grants", "municipal_programs", "wealth_advisors"]
    else ["businesses", "foundations", "nonprofits", "grants"]
  let focus := ["animal welfare corporate sponsor program",
    "charitable giving foundation grants nonprofit",
    "community outreach donations local business",
    "gift card donation fundraiser local businesses",
    "in kind donation services nonprofit animal rescue",
    "raffle prize gift certificate donation local"] ++
    (if r ≤ 15 then ["local employer community giving"]
     else ["regional corporate philanthropy program"])
  { sourceTypes := sourceTypes
    queryFocusTerms := focus
    contributionModes := ["cash", "sponsorships", "grants", "gift_cards",
      "in_kind_goods", "in_kind_services"]
    roleTargets := ["owner", "store manager",
      "community relations manager", "marketing director", "csr manager"]
    queryFamilies := heuristicQueryFamilies
    notes := "Heuristic source targeting based on discovery mode and radius." }

/-- The ordering asserted by the spec for `query_families`: ascending
priority, then family name. -/
def qfSpecLe (a b : QueryFamily) : Prop :=
  a.priority < b.priority ∨ (a.priority = b.priority ∧ a.family ≤ b.family)

instance : DecidableRel qfSpecLe := fun _ _ =>
  inferInstanceAs (Decidable (_ ∨ _))

instance : IsTotal QueryFamily qfSortLe where
  total a b := by
    unfold qfSortLe
    rcases lt_trichotomy (qfKeyP a) (qfKeyP b) with h | h | h
    · exact Or.inl (Or.inl h)
    · rcases le_total a.family b.family with hf | hf
      · exact Or.inl (Or.inr ⟨h, hf⟩)
      · exact Or.inr (Or.inr ⟨h.symm, hf⟩)
    · exact Or.inr (Or.inl h)

instance : IsTrans QueryFamily qfSortLe where
  trans a b c hab hbc := by
    unfold qfSortLe at *
    rcases hab with h1 | ⟨h1, hf1⟩
    · rcases hbc with h2 | ⟨h2, _⟩
      · exact Or.inl (h1.trans h2)
      · exact Or.inl (h2 ▸ h1)
    · rcases hbc with h2 | ⟨h2, hf2⟩
      · exact Or.inl (h1 ▸ h2)
      · exact Or.inr ⟨h1.trans h2, hf1.trans hf2⟩

/- ------------------------------------------------------------------
server.py `_start_explorer_discovery_job`: the async job lifecycle.
The job map guarded by `_EXPLORER_JOB_LOCK` holds one record per job and
`_update_explorer_job` merges field updates into it; the model applies
those merges directly to the job record.  `_utc_now_iso()` timestamps are
string parameters.
------------------------------------------------------------------ -/

/-- The `error` dict written by the failure branch:
`{"message": str(exc), "traceback": traceback.format_exc(limit=5)}`; the
`traceback` field carries the 5-frame-truncated trace. -/
structure JobError where
  message : String := ""
  traceback : String := ""
deriving DecidableEq, Repr

/-- The value returned by `run_scraper_discovery`: a details dict when
`return_details=True`, or a bare count (the `else` branch of the
completion update). -/
inductive DiscoveryRunResult where
  | payload (matchedCount savedCount : Int) (organizations : List Org)
  | count (n : Int)
deriving Repr

/-- The `result` dict attached on completion:
`result if isinstance(result, dict) else
{"saved_count": int(result or 0), "matched_count": int(result or 0),
"organizations": []}`. -/
def normalizeWorkerResult : DiscoveryRunResult → DiscoveryRunResult
  | .payload m s o => .payload m s o
  | .count n => .payload n n []

/-- The request parameters echoed into the job's `payload` dict. -/
structure JobPayload where
  location : Option String := none
  radiusMiles : Option ℚ := none
  limit : Option Int := none
  minScore : Option Int := none
  discoveryMode : Option String := none
  maxRuntimeSeconds : Option ℚ := none
  excludeRecordKeysCount : Nat := 0
  extractContacts : Bool := true
deriving Repr

/-- One explorer job record (`_EXPLORER_JOBS[job_id]`). -/
structure ExplorerJob where
  jobId : String := ""
  jobType : String := "funds_explorer_discovery"
  status : String := "queued"
  progress : Int := 0
  step : String := "queued"
  message : String := ""
  startedAt : Option String := none
  finishedAt : Option String := none
  error : Option JobError := none
  result : Option DiscoveryRunResult := none
  payload : JobPayload := {}

/-- server.py `_start_explorer_discovery_job` lines 525-551: the job
record created and returned to the caller before the worker thread runs. -/
def startExplorerDiscoveryJob (jobId : String) (payload : JobPayload) :
    ExplorerJob :=
  { jobId := jobId
    jobType := "funds_explorer_discovery"
    status := "queued"
    progress := 0
    step := "queued"
    message := "Discovery job queued."
    startedAt := none
    finishedAt := none
    error := none
    result := none
    payload := payload }

/-- One event delivered to the worker's `progress_cb`. -/
structure ProgressEvent where
  status : String := ""
  step : String := ""
  message : String := ""
  progress : Option Int := none
deriving Repr

/-- The `progress_cb` closure (lines 553-561): status and step default to
`"running"` for falsy values, the message defaults to `""`, and the
progress value is kept unless the event carries one. -/
def applyProgressEvent (j : ExplorerJob) (ev : ProgressEvent) :
    ExplorerJob :=
  { j with
    status := if ev.status = "" then "running" else ev.status
    step := if ev.step = "" then "running" else ev.step
    message := ev.message
    progress := match ev.progress with
      | some p => p
      | none => j.progress }

/-- The worker body (lines 563-596) as the sequence of job states it
writes: the initial `running` update, one state per progress event
delivered by `run_scraper_discovery` before it returns or raises, and the
final completion or failure update.  `outcome` is `Except.ok` with the
orchestrator's return value (a details dict, since the worker passes
`return_details=True`; the `count` constructor covers the non-dict
normalization branch of the completion update), or `Except.error` with
the caught exception's message and truncated traceback. -/
def explorerWorkerStates (queued : ExplorerJob) (startTs finishTs : String)
    (events : List ProgressEvent)
    (outcome : Except JobError DiscoveryRunResult) : List ExplorerJob :=
  let running := { queued with
    status := "running"
    step := "starting"
    message := "Starting discovery pipeline..."
    progress := 1
    startedAt := some startTs }
  let afterEvents := events.foldl applyProgressEvent running
  let final := match outcome with
    | .ok result =>
      { afterEvents with
        status := "completed"
        step := "complete"
        message := (match result with
          | .payload m _ _ => toString m
          | .count _ => "0") ++ " matches processed."
        progress := 100
        finishedAt := some finishTs
        result := some (normalizeWorkerResult result) }
    | .error e =>
      { afterEvents with
        status := "failed"
        step := "error"
        message := "Discovery job failed: " ++ e.message
        error := some e
        finishedAt := some finishTs }
  (events.scanl applyProgressEvent running) ++ [final]

/- ==================================================================
Theorems.
================================================================== -/

/-- **C10**. The `run_discovery` deadline is the start time plus
`max(5.0, max_runtime)`, so the effective budget is at least 5 seconds in
the future for every caller-supplied override (including zero, negative
or absent values). -/
theorem discovery_deadline_at_least_five_seconds (now : ℚ)
    (override : Option ℚ) (envMax : ℚ) :
    discoveryDeadline now override envMax =
      now + max 5 (override.getD envMax) ∧
    now + 5 ≤ discoveryDeadline now override envMax :=
  ⟨rfl, add_le_add_left (le_max_left 5 (override.getD envMax)) now⟩

/-- **C3** (counterexample). `_normalize_org_score` maps the non-negative
integer 0 to 0, which is outside the claimed range `[1, 10]`. -/
theorem normalize_org_score_zero_outside_claimed_range :
    normalizeOrgScore 0 = 0 ∧ ¬(1 ≤ normalizeOrgScore 0 ∧
      normalizeOrgScore 0 ≤ 10) := by
  refine ⟨rfl, ?_⟩
  intro h
  simp [normalizeOrgScore] at h

/-- **C3** (amended). Score normalization is idempotent —
`rescale(rescale(n)) = rescale(n)` for every integer `n` — and for every
non-negative integer input the normalized score lies in `[0, 10]` (with
`[1, 10]` attained for positive input), while the UI-scale projection of
any non-negative input lies in `[0, 100]`. -/
theorem score_rescale_idempotent_and_ranges (n : ℤ) (m : ℕ) :
    normalizeOrgScore (normalizeOrgScore n) = normalizeOrgScore n ∧
    0 ≤ normalizeOrgScore (m : ℤ) ∧ normalizeOrgScore (m : ℤ) ≤ 10 ∧
    1 ≤ normalizeOrgScore ((m : ℤ) + 1) ∧
    0 ≤ uiScore (m : ℤ) ∧ uiScore (m : ℤ) ≤ 100 := by
  have hle : ∀ k : ℤ, normalizeOrgScore k ≤ 10 := by
    intro k
    unfold normalizeOrgScore
    split
    · exact max_le (by norm_num) (min_le_left _ _)
    · omega
  have hpos : ∀ k : ℤ, 1 ≤ k → 1 ≤ normalizeOrgScore k := by
    intro k hk
    unfold normalizeOrgScore
    split
    · exact le_max_left _ _
    · exact hk
  have hnonneg : ∀ k : ℤ, 0 ≤ k → 0 ≤ normalizeOrgScore k := by
    intro k hk
    unfold normalizeOrgScore
    split
    · exact le_trans (by norm_num) (le_max_left _ _)
    · exact hk
  have hidem : normalizeOrgScore (normalizeOrgScore n) = normalizeOrgScore n := by
    have h10 := hle n
    conv_lhs => rw [normalizeOrgScore]
    rw [if_neg (by omega)]
  have hm0 : 0 ≤ normalizeOrgScore (m : ℤ) := hnonneg _ (by positivity)
  have hm10 := hle (m : ℤ)
  have hui : uiScore (m : ℤ) = normalizeOrgScore (m : ℤ) * 10 := by
    rw [uiScore, if_pos hm10]
  exact ⟨hidem, hm0, hm10, hpos _ (by omega), by omega, by omega⟩

/-- **C4** (counterexample). The three score-normalization functions do
not compute the same function on every integer input: at 0,
`_normalize_min_score` yields 1 while `_normalize_org_score` yields 0 and
`_score_10` yields 0 (and at −5 they yield 1, −5 and 0 respectively). -/
theorem score_normalizers_disagree_at_zero :
    normalizeMinScore 0 = 1 ∧ normalizeOrgScore 0 = 0 ∧ score10 0 = 0 ∧
    normalizeMinScore 0 ≠ normalizeOrgScore 0 ∧
    normalizeMinScore (-5) = 1 ∧ normalizeOrgScore (-5) = -5 ∧
    score10 (-5) = 0 := by
  norm_num [normalizeMinScore, normalizeOrgScore, score10, pyFloorDiv]

/-- **C4** (amended). On every integer input `n ≥ 1` the three
normalization functions `_normalize_min_score`, `_normalize_org_score`
and `_score_10` agree (the clamp-and-rescale rule `n > 10 ↦
clamp(⌈n/10⌉)`, `n ≤ 10 ↦ n`); they differ only at 0 and negative
inputs. -/
theorem score_normalizers_agree_on_positive (m : ℕ) :
    normalizeMinScore ((m : ℤ) + 1) = normalizeOrgScore ((m : ℤ) + 1) ∧
    normalizeOrgScore ((m : ℤ) + 1) = score10 ((m : ℤ) + 1) := by
  unfold normalizeMinScore normalizeOrgScore score10
  split
  · exact ⟨rfl, rfl⟩
  · constructor
    · rw [if_neg (by omega)]
      rw [max_eq_right, min_eq_right] <;> omega
    · rw [max_eq_right, min_eq_right] <;> omega

/-- Every organization kept by `_dedupe_orgs`'s loop has a non-empty
lowercased name and a key outside the running `seen` set. -/
theorem dedupeOrgsAux_key_fresh (l : List Org)
    (seen : List (String × String)) :
    ∀ o ∈ dedupeOrgsAux l seen, (orgPairKey o).1 ≠ "" ∧
      orgPairKey o ∉ seen := by
  induction l generalizing seen with
  | nil => simp [dedupeOrgsAux]
  | cons org rest ih =>
    intro o ho
    rw [dedupeOrgsAux] at ho
    by_cases h1 : (orgPairKey org).1 = ""
    · rw [if_pos h1] at ho
      exact ih seen o ho
    · rw [if_neg h1] at ho
      by_cases h2 : orgPairKey org ∈ seen
      · rw [if_pos h2] at ho
        exact ih seen o ho
      · rw [if_neg h2] at ho
        rcases List.mem_cons.mp ho with rfl | ho'
        · exact ⟨h1, h2⟩
        · have := ih (orgPairKey org :: seen) o ho'
          exact ⟨this.1, fun hm => this.2 (List.mem_cons_of_mem _ hm)⟩

/-- The output of `_dedupe_orgs`'s loop carries pairwise-distinct keys. -/
theorem dedupeOrgsAux_pairwise (l : List Org)
    (seen : List (String × String)) :
    (dedupeOrgsAux l seen).Pairwise
      (fun a b => orgPairKey a ≠ orgPairKey b) := by
  induction l generalizing seen with
  | nil => simp [dedupeOrgsAux]
  | cons org rest ih =>
    rw [dedupeOrgsAux]
    by_cases h1 : (orgPairKey org).1 = ""
    · rw [if_pos h1]; exact ih seen
    · rw [if_neg h1]
      by_cases h2 : orgPairKey org ∈ seen
      · rw [if_pos h2]; exact ih seen
      · rw [if_neg h2]
        refine List.Pairwise.cons ?_ (ih _)
        intro o ho heq
        have := (dedupeOrgsAux_key_fresh rest (orgPairKey org :: seen) o
          ho).2
        exact this (heq ▸ List.mem_cons_self _ _)

/-- A list whose members all have non-empty keys outside `seen` and whose
keys are pairwise distinct passes through `_dedupe_orgs`'s loop
unchanged. -/
theorem dedupeOrgsAux_fixed (l : List Org)
    (seen : List (String × String))
    (hmem : ∀ o ∈ l, (orgPairKey o).1 ≠ "" ∧ orgPairKey o ∉ seen)
    (hpw : l.Pairwise (fun a b => orgPairKey a ≠ orgPairKey b)) :
    dedupeOrgsAux l seen = l := by
  induction l generalizing seen with
  | nil => simp [dedupeOrgsAux]
  | cons org rest ih =>
    have h1 := hmem org (List.mem_cons_self _ _)
    rw [dedupeOrgsAux, if_neg h1.1, if_neg h1.2]
    congr 1
    refine ih _ ?_ (List.Pairwise.of_cons hpw)
    intro o ho
    refine ⟨(hmem o (List.mem_cons_of_mem _ ho)).1, ?_⟩
    intro hm
    rcases List.mem_cons.mp hm with heq | hm'
    · exact (List.rel_of_pairwise_cons hpw ho) heq.symm
    · exact (hmem o (List.mem_cons_of_mem _ ho)).2 hm'

/-- **C8**. `_dedupe_orgs` is idempotent — `dedupe(dedupe(x)) =
dedupe(x)` for every candidate list — and no two retained elements share
the same case-insensitive (stripped) `(name, website)` pair. -/
theorem dedupe_orgs_idempotent_and_key_distinct (x : List Org) :
    dedupeOrgs (dedupeOrgs x) = dedupeOrgs x ∧
    (dedupeOrgs x).Pairwise (fun a b => orgPairKey a ≠ orgPairKey b) := by
  refine ⟨?_, dedupeOrgsAux_pairwise x []⟩
  unfold dedupeOrgs
  refine dedupeOrgsAux_fixed _ _ ?_ (dedupeOrgsAux_pairwise x [])
  intro o ho
  exact ⟨(dedupeOrgsAux_key_fresh x [] o ho).1, by simp⟩

/-- Members of the matching loop's output are either admitted candidates
or carried over from the accumulator. -/
theorem discoveryFilterGo_admitted (p : FilterStageParams)
    (dl : Nat → Bool) (l : List Org) :
    ∀ (idx : Nat) (acc : List Org),
      (∀ o ∈ acc, candidateAdmitted p o = true) →
      ∀ o ∈ discoveryFilterGo p dl l idx acc,
        candidateAdmitted p o = true := by
  induction l with
  | nil =>
    intro idx acc hacc o ho
    rw [discoveryFilterGo] at ho
    exact hacc o (List.mem_reverse.mp ho)
  | cons org rest ih =>
    intro idx acc hacc o ho
    simp only [discoveryFilterGo] at ho
    split_ifs at ho with h1 h2 h3 h4 h5 h6 h7
    · exact hacc o (List.mem_reverse.mp ho)
    · exact ih _ _ hacc o ho
    · exact ih _ _ hacc o ho
    · exact ih _ _ hacc o ho
    · exact ih _ _ hacc o ho
    · exact ih _ _ hacc o ho
    · have hadm : candidateAdmitted p org = true := by
        simp only [Bool.not_eq_true] at h2 h3 h4 h5 h6
        simp only [Bool.not_eq_false'] at h2 h3 h4
        simp only [candidateAdmitted, h2, h3, h4, h5, h6, Bool.and_eq_true,
          Bool.not_eq_true', Bool.and_self, and_true, true_and]
      rcases List.mem_cons.mp (List.mem_reverse.mp ho) with rfl | hmem'
      · exact hadm
      · exact hacc o hmem'
    · have hadm : candidateAdmitted p org = true := by
        simp only [Bool.not_eq_true] at h2 h3 h4 h5 h6
        simp only [Bool.not_eq_false'] at h2 h3 h4
        simp only [candidateAdmitted, h2, h3, h4, h5, h6, Bool.and_eq_true,
          Bool.not_eq_true', Bool.and_self, and_true, true_and]
      refine ih _ _ ?_ o ho
      intro o' ho'
      rcases List.mem_cons.mp ho' with rfl | ho''
      · exact hadm
      · exact hacc o' ho''

/-- The matching loop never collects more than `limit_n` organizations
(provided fewer than `limit_n` are already accumulated). -/
theorem discoveryFilterGo_length (p : FilterStageParams)
    (dl : Nat → Bool) (l : List Org) :
    ∀ (idx : Nat) (acc : List Org), acc.length < p.limitN →
      (discoveryFilterGo p dl l idx acc).length ≤ p.limitN := by
  induction l with
  | nil =>
    intro idx acc hlen
    rw [discoveryFilterGo]
    simpa using hlen.le
  | cons org rest ih =>
    intro idx acc hlen
    simp only [discoveryFilterGo]
    split_ifs with h1 h2 h3 h4 h5 h6 h7
    · simpa using hlen.le
    · exact ih _ _ hlen
    · exact ih _ _ hlen
    · exact ih _ _ hlen
    · exact ih _ _ hlen
    · exact ih _ _ hlen
    · simp only [List.length_reverse, List.length_cons]
      omega
    · refine ih _ _ ?_
      simp only [List.length_cons] at h7 ⊢
      omega

/-- `_normalize_result_limit` always returns at least 1. -/
theorem normalizeResultLimit_pos (limit : Option Int) :
    1 ≤ normalizeResultLimit limit := by
  unfold normalizeResultLimit
  have h := le_max_left (1 : ℤ) (min (match limit with
    | none => 100
    | some n => if n = 0 then 100 else n) 1000)
  omega

/-- **C1**. Every organization the `run_discovery` matching loop retains
passes the discovery-mode filter, the normalized score floor, and the
location filter (applied in that order by the loop), its stable record
key lies in neither the persisted-organization key set nor the normalized
caller-supplied exclusion set, and the matched output never exceeds the
caller's normalized result limit — for every candidate list, every
deadline behaviour and every collaborator instantiation. -/
theorem run_discovery_matched_sound
    (wr : Geo → Option ℚ → Option ℚ → Option ℚ → Bool)
    (csOracle : String → Option (String × String))
    (zipOracle : String → Option String)
    (discoveryMode : Option String) (minScore : Int) (limit : Option Int)
    (locFilter : LocFilter) (originGeo : Option Geo)
    (radiusMiles : Option ℚ) (existingKeys excludeRecordKeys : List String)
    (deadline : Nat → Bool) (candidates : List Org) :
    (runDiscoveryFilterStage wr csOracle zipOracle discoveryMode minScore
        limit locFilter originGeo radiusMiles existingKeys
        excludeRecordKeys deadline candidates).Forall (fun org =>
      matchesDiscoveryMode org discoveryMode = true ∧
      scorePasses org (normalizeMinScore minScore) = true ∧
      locationPasses wr csOracle zipOracle org locFilter originGeo
        radiusMiles = true ∧
      stableOrgRecordKey org ∉ existingKeys ∧
      stableOrgRecordKey org ∉ normalizeExcludedKeys excludeRecordKeys) ∧
    (runDiscoveryFilterStage wr csOracle zipOracle discoveryMode minScore
        limit locFilter originGeo radiusMiles existingKeys
        excludeRecordKeys deadline candidates).length ≤
      normalizeResultLimit limit := by
  constructor
  · rw [List.forall_iff_forall_mem]
    intro org ho
    have hadm := discoveryFilterGo_admitted _ deadline candidates 1 []
      (by simp) org ho
    simp only [candidateAdmitted, Bool.and_eq_true, Bool.not_eq_true',
      Bool.and_eq_false_iff, decide_eq_false_iff_not, ne_eq,
      not_not] at hadm
    obtain ⟨⟨⟨⟨hmode, hscore⟩, hloc⟩, hex⟩, hexcl⟩ := hadm
    refine ⟨hmode, hscore, hloc, ?_, ?_⟩
    · rcases hex with hnil | hcontains
      · simp [hnil]
      · intro hmem
        simp at hcontains
        exact hcontains hmem
    · rcases hexcl with hnil | hcontains
      · simp [hnil]
      · intro hmem
        simp at hcontains
        exact hcontains hmem
  · exact discoveryFilterGo_length _ deadline candidates 1 []
      (by simpa using normalizeResultLimit_pos limit)

/-- `pyLower` maps a string to the empty string only if it was empty. -/
theorem pyLower_eq_empty_iff (s : String) : pyLower s = "" ↔ s = "" := by
  cases s with
  | mk data =>
    constructor
    · intro h
      have hd := congrArg String.data h
      simp only [pyLower, String.toList] at hd
      rcases List.map_eq_nil_iff.mp hd with h0
      simp [h0]
    · intro h
      rw [h]
      rfl

/-- Every pair kept by `_dedupe_contacts_for_org`'s filtering pass has a
non-empty stripped email or a non-empty stripped full name. -/
theorem dedupeContactsGo_mem (l : List Contact) :
    ∀ (seen : List String) (x : Nat × Contact), x ∈ dedupeContactsGo l seen →
      pyStrip x.2.email ≠ "" ∨ pyStrip x.2.fullName ≠ "" := by
  induction l with
  | nil =>
    intro seen x hx
    simp [dedupeContactsGo] at hx
  | cons c rest ih =>
    intro seen x hx
    simp only [dedupeContactsGo] at hx
    split_ifs at hx with h1 h2
    · exact ih seen x hx
    · exact ih seen x hx
    · rcases List.mem_cons.mp hx with rfl | hx'
      · simp only [Bool.and_eq_true, decide_eq_true_eq, not_and] at h1
        by_cases he : pyStripLower c.email = ""
        · have hn := h1 he
          right
          intro hstrip
          exact hn (by simp [pyStripLower, hstrip, pyLower_eq_empty_iff])
        · left
          intro hstrip
          exact he (by simp [pyStripLower, hstrip]; rfl)
      · exact ih _ x hx'

/-- Every contact returned by `_dedupe_contacts_for_org` has a non-empty
stripped email or full name. -/
theorem dedupeContactsForOrg_mem (l : List Contact) :
    ∀ c ∈ dedupeContactsForOrg l,
      pyStrip c.email ≠ "" ∨ pyStrip c.fullName ≠ "" := by
  intro c hc
  unfold dedupeContactsForOrg at hc
  rcases List.mem_map.mp hc with ⟨pair, hp, rfl⟩
  exact dedupeContactsGo_mem l [] pair
    ((List.perm_insertionSort _ _).mem_iff.mp hp)

/-- Every record kept by the preview path's inner loop has a non-empty
stripped email or full name (the loop re-checks exactly that guard). -/
theorem previewRecordLoop_records (existingEmails : List String)
    (dl : Nat → Bool) (orgKey : String) (org : PreviewOrg)
    (l : List Contact) :
    ∀ (cIdx : Nat) (seenKeys : List String) (acc : List PreviewRecord),
      (∀ r ∈ acc, pyStrip r.contact.email ≠ "" ∨
        pyStrip r.contact.fullName ≠ "") →
      ∀ r ∈ (previewRecordLoop existingEmails dl orgKey org l cIdx seenKeys
        acc).2.1,
        pyStrip r.contact.email ≠ "" ∨ pyStrip r.contact.fullName ≠ "" := by
  induction l with
  | nil =>
    intro cIdx seenKeys acc hacc r hr
    rw [previewRecordLoop] at hr
    exact hacc r (List.mem_reverse.mp hr)
  | cons c rest ih =>
    intro cIdx seenKeys acc hacc r hr
    simp only [previewRecordLoop] at hr
    split_ifs at hr with h1 h2 h3
    · exact hacc r (List.mem_reverse.mp hr)
    · exact ih _ _ _ hacc r hr
    · exact ih _ _ _ hacc r hr
    · refine ih _ _ _ ?_ r hr
      intro r' hr'
      rcases List.mem_cons.mp hr' with rfl | hr''
      · simp only [Bool.or_eq_true, Bool.and_eq_true, decide_eq_true_eq,
          not_or, not_and] at h3
        by_cases he : pyStripLower c.email = ""
        · have hn := h3.1 he
          right
          exact hn
        · left
          intro hstrip
          exact he (by simp [pyStripLower, hstrip]; rfl)
      · exact hacc r' hr''

/-- Every record emitted by the preview path's outer loop has a non-empty
stripped email or full name. -/
theorem previewOrgsGo_records (existingEmails : List String)
    (perOrgLimit : Nat) (steps : List PreviewOrgStep) :
    ∀ (seenKeys : List String) (acc : List PreviewRecord),
      (∀ r ∈ acc, pyStrip r.contact.email ≠ "" ∨
        pyStrip r.contact.fullName ≠ "") →
      ∀ r ∈ previewOrgsGo existingEmails perOrgLimit steps seenKeys acc,
        pyStrip r.contact.email ≠ "" ∨ pyStrip r.contact.fullName ≠ "" := by
  induction steps with
  | nil =>
    intro seenKeys acc hacc r hr
    rw [previewOrgsGo] at hr
    exact hacc r hr
  | cons step rest ih =>
    intro seenKeys acc hacc r hr
    have hrecs : ∀ (ct : List Contact) (ii : Nat → Bool) (ok : String)
        (sk : List String),
        ∀ r' ∈ (previewRecordLoop existingEmails ii ok step.org ct 1 sk
          []).2.1,
        pyStrip r'.contact.email ≠ "" ∨ pyStrip r'.contact.fullName ≠ "" :=
      fun ct ii ok sk =>
        previewRecordLoop_records existingEmails ii ok step.org ct 1 sk []
          (by simp)
    have happ : ∀ (recs : List PreviewRecord),
        (∀ r' ∈ recs, pyStrip r'.contact.email ≠ "" ∨
          pyStrip r'.contact.fullName ≠ "") →
        ∀ r' ∈ acc ++ recs, pyStrip r'.contact.email ≠ "" ∨
          pyStrip r'.contact.fullName ≠ "" := by
      intro recs hrecs' r' hr'
      rcases List.mem_append.mp hr' with h | h
      · exact hacc r' h
      · exact hrecs' r' h
    simp only [previewOrgsGo] at hr
    split_ifs at hr
    all_goals first
      | exact hacc r hr
      | exact ih _ _ hacc r hr
      | exact happ _ (hrecs _ _ _ _) r hr
      | exact ih _ _ (happ _ (hrecs _ _ _ _)) r hr

/-- **C2**. For every possible output of the contact sources (Apollo
enrichment, static scraping of any HTML, the headless-render fallback),
every contact in the extractor's deduplicated output — the
`run_extraction` per-organization list and every record of the preview
path — has a non-empty (stripped) email or a non-empty (stripped) full
name; a contact with empty email and empty name is never emitted. -/
theorem extractor_outputs_have_email_or_name
    (contacts apolloC staticC playC : List Contact) (website : String)
    (deadlineHit : Bool) (existingEmails : List String) (perOrgLimit : Nat)
    (steps : List PreviewOrgStep) :
    (dedupeContactsForOrg contacts).Forall
      (fun c => pyStrip c.email ≠ "" ∨ pyStrip c.fullName ≠ "") ∧
    (runExtractionOrgContacts apolloC staticC playC website
      deadlineHit).Forall
      (fun c => pyStrip c.email ≠ "" ∨ pyStrip c.fullName ≠ "") ∧
    (extractContactsPreviewForOrgs existingEmails perOrgLimit steps).Forall
      (fun r => pyStrip r.contact.email ≠ "" ∨
        pyStrip r.contact.fullName ≠ "") := by
  refine ⟨?_, ?_, ?_⟩
  · rw [List.forall_iff_forall_mem]
    exact dedupeContactsForOrg_mem contacts
  · rw [List.forall_iff_forall_mem]
    unfold runExtractionOrgContacts
    exact dedupeContactsForOrg_mem _
  · rw [List.forall_iff_forall_mem]
    exact previewOrgsGo_records existingEmails perOrgLimit steps [] []
      (by simp)

/-- The inner place loop never grows the output beyond the target count
(when entered below the target). -/
theorem gpPlacesLoop_le (target : Nat) (l : List GPlace) :
    ∀ (seen : List String) (out : List GPlace), out.length < target →
      ((gpPlacesLoop target l seen out).2).length ≤ target := by
  induction l with
  | nil =>
    intro seen out hlen
    rw [gpPlacesLoop]
    exact hlen.le
  | cons p rest ih =>
    intro seen out hlen
    simp only [gpPlacesLoop]
    split_ifs with h1 h2
    · exact ih _ _ hlen
    · simp only [List.length_append, List.length_cons, List.length_nil]
      simp only [List.length_append, List.length_cons, List.length_nil] at h2
      omega
    · refine ih _ _ ?_
      simp only [List.length_append, List.length_cons, List.length_nil] at h2 ⊢
      omega

/-- The tile loop preserves the target bound on the accumulated output. -/
theorem gpTilesLoop_le (gdl sdl : Nat → Bool)
    (supply : Nat → Option (List GPlace)) (target maxErr : Nat) :
    ∀ (n idx : Nat) (seen : List String) (out : List GPlace) (errs : Nat),
      out.length ≤ target →
      (gpTilesLoop gdl sdl supply target maxErr n idx seen out
        errs).length ≤ target := by
  intro n
  induction n with
  | zero =>
    intro idx seen out errs hlen
    rw [gpTilesLoop]
    exact hlen
  | succ n ih =>
    intro idx seen out errs hlen
    rw [gpTilesLoop]
    split_ifs with h1 h2 h3
    · exact hlen
    · exact hlen
    · exact hlen
    · cases hsup : supply idx with
      | none =>
        simp only []
        split_ifs with h4
        · exact hlen
        · exact ih _ _ _ _ hlen
      | some places =>
        refine ih _ _ _ _ ?_
        exact gpPlacesLoop_le target places seen out (by omega)

/-- The code's target candidate count is at least 80. -/
theorem targetCandidates_pos (limit : Int) : 0 < targetCandidates limit := by
  unfold targetCandidates
  have h1 : (80 : ℤ) ≤ max (clampResultLimit limit * 4) 80 :=
    le_max_right _ _
  have h2 : (80 : ℤ) ≤ min (max (clampResultLimit limit * 4) 80) 4000 :=
    le_min h1 (by norm_num)
  omega

/-- **C6** (amended). The GeoTiledPlaces provider accumulates candidates
only up to `min(max(clamp_{[1,1000]}(limit)·4, 80), 4000)` — the target
computed by `targetCandidates` from the clamped result limit, whose outer
cap is 4000 — and never returns more candidates than that target, for
every tile supply, deadline behaviour and error pattern. -/
theorem google_places_candidates_le_target (gdl sdl : Nat → Bool)
    (supply : Nat → Option (List GPlace)) (limit : Int)
    (maxTileErrors tileCount : Nat) :
    (discoverGooglePlacesNearby gdl sdl supply limit maxTileErrors
      tileCount).length ≤ targetCandidates limit := by
  unfold discoverGooglePlacesNearby
  exact gpTilesLoop_le _ _ _ _ _ _ _ _ _ _ (by simp)

/-- `pyStrip` leaves a string of non-whitespace characters unchanged. -/
theorem pyStrip_eq_self_of_no_ws (l : List Char)
    (h : ∀ c ∈ l, c.isWhitespace = false) :
    pyStrip (String.mk l) = String.mk l := by
  have hdrop : ∀ (m : List Char), (∀ c ∈ m, c.isWhitespace = false) →
      m.dropWhile Char.isWhitespace = m := by
    intro m hm
    rw [List.dropWhile_eq_self_iff]
    intro hl
    have := hm _ (List.getElem_mem hl)
    simp [List.get_eq_getElem, this]
  unfold pyStrip
  have h1 : (String.mk l).toList = l := rfl
  rw [h1, hdrop l h, hdrop l.reverse
    (fun c hc => h c (List.mem_reverse.mp hc)), List.reverse_reverse]

/-- Every id in the C6 counterexample supply is strip-invariant and
non-empty. -/
theorem gpCexIds_strip (s : String) (hs : s ∈ gpCexIds) :
    pyStrip s = s ∧ s ≠ "" := by
  rcases List.mem_map.mp hs with ⟨k, _, rfl⟩
  constructor
  · refine pyStrip_eq_self_of_no_ws _ ?_
    intro c hc
    rcases List.mem_append.mp hc with h | h
    · rw [List.eq_of_mem_replicate h]
      decide
    · rcases List.mem_singleton.mp h with rfl
      decide
  · intro h
    have := congrArg String.data h
    simp at this

/-- The C6 counterexample ids are pairwise distinct. -/
theorem gpCexIds_nodup : gpCexIds.Nodup := by
  refine List.Nodup.map ?_ (List.nodup_range 1001)
  intro a b hab
  have := congrArg (fun s => s.data.length) hab
  simpa using this

/-- Counting lemma for the inner place loop: distinct fresh non-empty ids
are all consumed up to the target. -/
theorem gpPlacesLoop_count (target : Nat) (l : List GPlace) :
    ∀ (seen : List String) (out : List GPlace),
      (∀ p ∈ l, pyStrip p.id ≠ "" ∧ seen.contains (pyStrip p.id) = false) →
      (l.map (fun p => pyStrip p.id)).Nodup → out.length < target →
      ((gpPlacesLoop target l seen out).2).length =
        min (out.length + l.length) target := by
  induction l with
  | nil =>
    intro seen out hfresh hnodup hlen
    rw [gpPlacesLoop]
    simp
    omega
  | cons p rest ih =>
    intro seen out hfresh hnodup hlen
    have hp := hfresh p (List.mem_cons_self _ _)
    have hpseen : pyStrip p.id ∉ seen := by simpa using hp.2
    simp only [gpPlacesLoop]
    rw [if_neg (by simp [hp.1, hpseen])]
    by_cases h2 : target ≤ (out ++ [p]).length
    · rw [if_pos h2]
      simp only [List.length_append, List.length_cons, List.length_nil] at h2 ⊢
      omega
    · rw [if_neg h2]
      have hnodup' : (∀ x ∈ rest, ¬pyStrip x.id = pyStrip p.id) ∧
          (List.map (fun r => pyStrip r.id) rest).Nodup := by
        simpa using hnodup
      have hfresh' : ∀ q ∈ rest, pyStrip q.id ≠ "" ∧
          (pyStrip p.id :: seen).contains (pyStrip q.id) = false := by
        intro q hq
        refine ⟨(hfresh q (List.mem_cons_of_mem _ hq)).1, ?_⟩
        have hqp : pyStrip q.id ≠ pyStrip p.id := hnodup'.1 q hq
        have hq2 : pyStrip q.id ∉ seen := by
          simpa using (hfresh q (List.mem_cons_of_mem _ hq)).2
        simp [List.contains_cons, hqp, hq2]
      have hlen' : (out ++ [p]).length < target := by
        simp only [List.length_append, List.length_cons, List.length_nil]
        simp only [List.length_append, List.length_cons,
          List.length_nil] at h2
        omega
      rw [ih _ _ hfresh' hnodup'.2 hlen']
      simp only [List.length_append, List.length_cons, List.length_nil]
      omega

/-- **C6** (counterexample). At a requested limit of 300 the claimed
target `min(max(limit·4, 80), 1000)` equals 1000, but the code's target
(`targetCandidates`) is 1200, and a one-tile run whose tile serves 1001
distinct places returns 1001 candidates — more than the claimed
target. -/
theorem google_places_exceeds_claimed_target :
    specTargetCandidates 300 = 1000 ∧ targetCandidates 300 = 1200 ∧
    1000 < (discoverGooglePlacesNearby (fun _ => false) (fun _ => false)
      gpCexSupply 300 10 1).length := by
  have htarget : targetCandidates 300 = 1200 := by
    norm_num [targetCandidates, clampResultLimit]
    decide
  have hspec : specTargetCandidates 300 = 1000 := by
    norm_num [specTargetCandidates]
    decide
  refine ⟨hspec, htarget, ?_⟩
  have hmapstrip : (gpCexIds.map (fun s => ({ id := s } : GPlace))).map
      (fun p => pyStrip p.id) = gpCexIds := by
    rw [List.map_map]
    have : ∀ s ∈ gpCexIds,
        ((fun p : GPlace => pyStrip p.id) ∘ fun s => ({ id := s } : GPlace))
          s = id s := by
      intro s hs
      exact (gpCexIds_strip s hs).1
    rw [List.map_congr_left this, List.map_id]
  have hfresh : ∀ p ∈ gpCexIds.map (fun s => ({ id := s } : GPlace)),
      pyStrip p.id ≠ "" ∧ ([] : List String).contains (pyStrip p.id) =
        false := by
    intro p hp
    rcases List.mem_map.mp hp with ⟨s, hs, rfl⟩
    refine ⟨?_, rfl⟩
    rw [(gpCexIds_strip s hs).1]
    exact (gpCexIds_strip s hs).2
  have hnodup : ((gpCexIds.map (fun s => ({ id := s } : GPlace))).map
      (fun p => pyStrip p.id)).Nodup := by
    rw [hmapstrip]; exact gpCexIds_nodup
  have hcount := gpPlacesLoop_count 1200
    (gpCexIds.map (fun s => ({ id := s } : GPlace))) [] [] hfresh hnodup
    (by norm_num)
  have hids_len : gpCexIds.length = 1001 := by
    simp [gpCexIds]
  unfold discoverGooglePlacesNearby
  rw [htarget]
  rw [show (1 : Nat) = 0 + 1 from rfl, gpTilesLoop]
  simp only [gpCexSupply, if_pos rfl, Bool.false_eq_true, if_false,
    List.length_nil, if_true]
  rw [if_neg (by norm_num), gpTilesLoop]
  rw [hcount]
  simp only [List.length_nil, List.length_map, hids_len]
  norm_num

/-- **C7** (counterexample). Neither path yields a list sorted by
ascending priority then family name: the heuristic fallback's
`query_families` comes in declaration order with priorities (1,2,2,3,1),
and in the validated-LLM path a 0-priority family sorts under the key 99,
after every non-zero priority. -/
theorem query_families_not_priority_sorted :
    ¬ ((heuristicSourcePlan (some "businesses")
        none).queryFamilies.Pairwise qfSpecLe) ∧
    ¬ ((normalizeQueryFamilies
        [{ family := "a", priority := 0, queries := ["q"] },
         { family := "b", priority := 5, queries := ["q"] }]).Pairwise
      qfSpecLe) := by
  constructor
  · rw [show (heuristicSourcePlan (some "businesses")
        none).queryFamilies = heuristicQueryFamilies from rfl]
    decide
  · decide

/-- **C7** (amended). The validated-LLM `query_families` list is capped at
16 entries and sorted ascending by the effective sort key
`(priority if non-zero else 99, family name)`; the heuristic fallback's
list is the fixed five-entry declaration-order list (priorities
1,2,2,3,1), which is not sorted by priority. -/
theorem query_families_normalized_sorted_and_capped
    (items : List QueryFamilyRaw) (mode : Option String)
    (radius : Option ℚ) :
    (normalizeQueryFamilies items).length ≤ 16 ∧
    (normalizeQueryFamilies items).Pairwise qfSortLe ∧
    (heuristicSourcePlan mode radius).queryFamilies =
      heuristicQueryFamilies ∧
    heuristicQueryFamilies.length = 5 := by
  refine ⟨?_, ?_, rfl, rfl⟩
  · unfold normalizeQueryFamilies
    simp only [List.length_take]
    exact min_le_left _ _
  · unfold normalizeQueryFamilies
    exact List.Pairwise.sublist (List.take_sublist _ _)
      (List.sorted_insertionSort qfSortLe _)

/-- Progress events never touch the job's `error` field. -/
theorem foldl_applyProgressEvent_error (events : List ProgressEvent) :
    ∀ j : ExplorerJob, (events.foldl applyProgressEvent j).error =
      j.error := by
  induction events with
  | nil => intro j; rfl
  | cons ev rest ih =>
    intro j
    simp only [List.foldl_cons]
    have h := ih (applyProgressEvent j ev)
    simpa [applyProgressEvent] using h

/-- Progress events never touch the job's `result` field. -/
theorem foldl_applyProgressEvent_result (events : List ProgressEvent) :
    ∀ j : ExplorerJob, (events.foldl applyProgressEvent j).result =
      j.result := by
  induction events with
  | nil => intro j; rfl
  | cons ev rest ih =>
    intro j
    simp only [List.foldl_cons]
    have h := ih (applyProgressEvent j ev)
    simpa [applyProgressEvent] using h

/-- **C9**. Submitting a discovery job returns a `queued` job with no
result and no error; the worker's first write sets it `running`, and for
every outcome the job's final state is exactly one of: `completed` with
the orchestrator's (normalized) result payload attached and no error, or
— only when the worker body raised — `failed`, with no result, the
exception message in the job message, and the message/truncated-traceback
pair in the job's `error` field. -/
theorem explorer_job_lifecycle (jobId : String) (payload : JobPayload)
    (startTs finishTs : String) (events : List ProgressEvent)
    (outcome : Except JobError DiscoveryRunResult) :
    (startExplorerDiscoveryJob jobId payload).status = "queued" ∧
    (startExplorerDiscoveryJob jobId payload).error = none ∧
    (startExplorerDiscoveryJob jobId payload).result = none ∧
    (explorerWorkerStates (startExplorerDiscoveryJob jobId payload) startTs
      finishTs events outcome).head?.map ExplorerJob.status =
      some "running" ∧
    (match outcome with
     | .ok r =>
       (explorerWorkerStates (startExplorerDiscoveryJob jobId payload)
         startTs finishTs events outcome).getLast?.map
           (fun j => (j.status, j.result, j.error)) =
         some ("completed", some (normalizeWorkerResult r), none)
     | .error e =>
       (explorerWorkerStates (startExplorerDiscoveryJob jobId payload)
         startTs finishTs events outcome).getLast?.map
           (fun j => (j.status, j.result, j.error, j.message)) =
         some ("failed", none, some e,
           "Discovery job failed: " ++ e.message)) := by
  refine ⟨rfl, rfl, rfl, ?_, ?_⟩
  · cases events with
    | nil => cases outcome <;> rfl
    | cons ev rest =>
      cases outcome <;>
        simp [explorerWorkerStates, List.scanl_cons, List.head?_append]
  · cases outcome with
    | ok r =>
      simp [explorerWorkerStates, List.getLast?_concat,
        foldl_applyProgressEvent_error, foldl_applyProgressEvent_result,
        startExplorerDiscoveryJob]
    | error e =>
      simp [explorerWorkerStates, List.getLast?_concat,
        foldl_applyProgressEvent_error, foldl_applyProgressEvent_result,
        startExplorerDiscoveryJob]

/-- Tiles kept by the tile dedup loop have keys outside the running
`seen` set. -/
theorem dedupeTilesAux_key_fresh (l : List Tile) (seen : List (ℚ × ℚ)) :
    ∀ t ∈ dedupeTilesAux l seen, tileKey5 t ∉ seen := by
  induction l generalizing seen with
  | nil => simp [dedupeTilesAux]
  | cons u rest ih =>
    intro t ht
    rw [dedupeTilesAux] at ht
    split_ifs at ht with h1
    · exact ih seen t ht
    · rcases List.mem_cons.mp ht with rfl | ht'
      · exact h1
      · have := ih (tileKey5 u :: seen) t ht'
        exact fun hm => this (List.mem_cons_of_mem _ hm)

/-- The tile dedup loop output has pairwise-distinct round-5 keys. -/
theorem dedupeTilesAux_pairwise (l : List Tile) (seen : List (ℚ × ℚ)) :
    (dedupeTilesAux l seen).Pairwise
      (fun a b => tileKey5 a ≠ tileKey5 b) := by
  induction l generalizing seen with
  | nil => simp [dedupeTilesAux]
  | cons u rest ih =>
    rw [dedupeTilesAux]
    split_ifs with h1
    · exact ih seen
    · refine List.Pairwise.cons ?_ (ih _)
      intro t ht heq
      exact dedupeTilesAux_key_fresh rest (tileKey5 u :: seen) t ht
        (heq ▸ List.mem_cons_self _ _)

/-- The tile dedup loop only returns members of its input. -/
theorem dedupeTilesAux_subset (l : List Tile) (seen : List (ℚ × ℚ)) :
    ∀ t ∈ dedupeTilesAux l seen, t ∈ l := by
  induction l generalizing seen with
  | nil => simp [dedupeTilesAux]
  | cons u rest ih =>
    intro t ht
    rw [dedupeTilesAux] at ht
    split_ifs at ht with h1
    · exact List.mem_cons_of_mem _ (ih seen t ht)
    · rcases List.mem_cons.mp ht with rfl | ht'
      · exact List.mem_cons_self _ _
      · exact List.mem_cons_of_mem _ (ih _ t ht')

/-- A member of the input whose key is fresh and not shared with any other
input element survives the tile dedup loop. -/
theorem dedupeTilesAux_mem (l : List Tile) :
    ∀ (seen : List (ℚ × ℚ)) (t : Tile), t ∈ l → tileKey5 t ∉ seen →
      (∀ u ∈ l, u ≠ t → tileKey5 u ≠ tileKey5 t) →
      t ∈ dedupeTilesAux l seen := by
  induction l with
  | nil =>
    intro seen t htl
    cases htl
  | cons u rest ih =>
    intro seen t htl hts huniq
    rw [dedupeTilesAux]
    rcases List.mem_cons.mp htl with rfl | htl'
    · rw [if_neg hts]
      exact List.mem_cons_self _ _
    · by_cases hut : u = t
      · subst hut
        rw [if_neg hts]
        exact List.mem_cons_self _ _
      · have hneq := huniq u (List.mem_cons_self _ _) hut
        split_ifs with h1
        · exact ih seen t htl' hts
            (fun v hv hvt => huniq v (List.mem_cons_of_mem _ hv) hvt)
        · refine List.mem_cons_of_mem _ (ih _ t htl' ?_
            (fun v hv hvt => huniq v (List.mem_cons_of_mem _ hv) hvt))
          intro hm
          rcases List.mem_cons.mp hm with heq | hm'
          · exact hneq heq.symm
          · exact hts hm'

/-- Every raw grid tile stores the 7-decimal rounding of a grid point that
passed the pre-rounding radius filter, and carries the clamped tile
radius. -/
theorem rawGridTiles_mem (hav : ℚ → ℚ → ℚ → ℚ → ℚ)
    (centerLat centerLng radiusM tileR latStep lonStep latRange lonRange :
      ℚ) (t : Tile)
    (ht : t ∈ rawGridTiles hav centerLat centerLng radiusM tileR latStep
      lonStep latRange lonRange) :
    t.radiusM = tileR ∧ ∃ la ln, t.latitude = roundTo 7 la ∧
      t.longitude = roundTo 7 ln ∧
      hav centerLat centerLng la ln ≤ radiusM + tileR := by
  unfold rawGridTiles at ht
  rcases List.mem_flatMap.mp ht with ⟨i, _, hi⟩
  rcases List.mem_filterMap.mp hi with ⟨j, _, hj⟩
  simp only [] at hj
  split_ifs at hj with hc
  rcases Option.some_inj.mp hj.symm with rfl
  exact ⟨rfl, _, _, rfl, rfl, hc⟩

/-- **C5** (amended). For every center, radius and tile radius (and every
float-trigonometry instantiation `hav`/`mpdLon`), `generate_search_tiles`
puts the origin tile first, contains it exactly once, produces no two
tiles whose centers coincide after rounding to 5 decimals, and every
non-origin tile carries the clamped tile radius and stores the 7-decimal
rounding of a grid point whose pre-rounding distance from the origin is
at most `radius + tileRadius` (the filter runs before the stored
coordinates are rounded). -/
theorem generate_tiles_origin_dedup_and_filter
    (hav : ℚ → ℚ → ℚ → ℚ → ℚ) (mpdLon : ℚ → ℚ)
    (centerLat centerLng radiusM tileRadiusM : ℚ) :
    (generateSearchTiles hav mpdLon centerLat centerLng radiusM
      tileRadiusM).head? =
      some ⟨centerLat, centerLng, max 250 tileRadiusM⟩ ∧
    (generateSearchTiles hav mpdLon centerLat centerLng radiusM
      tileRadiusM).count
      ⟨centerLat, centerLng, max 250 tileRadiusM⟩ = 1 ∧
    (generateSearchTiles hav mpdLon centerLat centerLng radiusM
      tileRadiusM).Pairwise (fun a b => tileKey5 a ≠ tileKey5 b) ∧
    (generateSearchTiles hav mpdLon centerLat centerLng radiusM
      tileRadiusM).tail.Forall (fun t =>
        t.radiusM = max 250 tileRadiusM ∧
        ∃ la ln, t.latitude = roundTo 7 la ∧ t.longitude = roundTo 7 ln ∧
          hav centerLat centerLng la ln ≤
            radiusM + max 250 tileRadiusM) := by
  refine ⟨rfl, ?_, ?_, ?_⟩
  · rw [generateSearchTiles, List.count_cons_self]
    have h0 : (dedupeTilesAux (rawGridTiles hav centerLat centerLng
        radiusM (max 250 tileRadiusM)
        (max 250 tileRadiusM * (8 / 5) / 111320)
        (max 250 tileRadiusM * (8 / 5) / max 1 (mpdLon centerLat))
        (radiusM / 111320) (radiusM / max 1 (mpdLon centerLat)))
        [(roundTo 5 centerLat, roundTo 5 centerLng)]).count
        ⟨centerLat, centerLng, max 250 tileRadiusM⟩ = 0 := by
      rw [List.count_eq_zero]
      intro hmem
      exact dedupeTilesAux_key_fresh _ _ _ hmem (List.mem_singleton.mpr rfl)
    omega
  · rw [generateSearchTiles]
    refine List.Pairwise.cons ?_ (dedupeTilesAux_pairwise _ _)
    intro t ht heq
    exact dedupeTilesAux_key_fresh _ _ t ht
      (heq ▸ List.mem_singleton.mpr rfl)
  · rw [generateSearchTiles]
    rw [List.forall_iff_forall_mem]
    intro t ht
    exact rawGridTiles_mem hav centerLat centerLng radiusM _ _ _ _ _ t
      (dedupeTilesAux_subset _ _ t ht)

/-- **C5** (counterexample). With the search origin at the equator, radius
450 m and tile radius 250 m, instantiating the float haversine with the
exact equirectangular L1 metre distance (and metres-per-degree with its
exact equator value 111320), the corner grid point lies at distance
exactly `radius + tileRadius = 700` and is kept — but its stored center is
the grid point rounded to 7 decimals, whose distance from the origin
exceeds 700: the non-origin tile `(0.0031441, 0.0031441)` in the output is
more than `radius + tileRadius` from the origin. -/
theorem generate_tiles_rounded_center_beyond_radius :
    (⟨31441 / 10 ^ 7, 31441 / 10 ^ 7, 250⟩ : Tile) ∈
      (generateSearchTiles havL1 mpdEquator 0 0 450 250).tail ∧
    450 + 250 < havL1 0 0 ((31441 : ℚ) / 10 ^ 7)
      ((31441 : ℚ) / 10 ^ 7) := by
  constructor
  · show (⟨31441 / 10 ^ 7, 31441 / 10 ^ 7, 250⟩ : Tile) ∈
      dedupeTilesAux (rawGridTiles havL1 0 0 450 250
        (max 250 250 * (8 / 5) / 111320)
        (max 250 250 * (8 / 5) / max 1 111320) (450 / 111320)
        (450 / max 1 111320)) [(roundTo 5 0, roundTo 5 0)]
    have hcount : ((⌊(2 * (450 / 111320) /
        (max 250 250 * (8 / 5) / 111320) : ℚ)⌋ + 1)).toNat = 3 := by
      norm_num
      rfl
    have hcount2 : ((⌊(2 * (450 / max 1 111320) /
        (max 250 250 * (8 / 5) / max 1 111320) : ℚ)⌋ + 1)).toNat = 3 := by
      norm_num
      rfl
    refine dedupeTilesAux_mem _ _ _ ?_ ?_ ?_
    · unfold rawGridTiles
      rw [hcount, hcount2]
      refine List.mem_flatMap.mpr ⟨2, by simp [List.mem_range], ?_⟩
      refine List.mem_filterMap.mpr ⟨2, by simp [List.mem_range], ?_⟩
      norm_num [havL1, roundTo]
    · norm_num [tileKey5, roundTo]
    · intro u hu hne
      unfold rawGridTiles at hu
      rw [hcount, hcount2] at hu
      rcases List.mem_flatMap.mp hu with ⟨i, hiR, hi⟩
      rcases List.mem_filterMap.mp hi with ⟨j, hjR, hj⟩
      simp only [] at hj
      split_ifs at hj with hc
      rcases Option.some_inj.mp hj with rfl
      rw [List.mem_range] at hiR hjR
      interval_cases i <;> interval_cases j
      · norm_num [tileKey5, roundTo, Prod.mk.injEq]
      · norm_num [tileKey5, roundTo, Prod.mk.injEq]
      · norm_num [tileKey5, roundTo, Prod.mk.injEq]
      · norm_num [tileKey5, roundTo, Prod.mk.injEq]
      · norm_num [tileKey5, roundTo, Prod.mk.injEq]
      · norm_num [tileKey5, roundTo, Prod.mk.injEq]
      · norm_num [tileKey5, roundTo, Prod.mk.injEq]
      · norm_num [tileKey5, roundTo, Prod.mk.injEq]
      · exact absurd (by norm_num [roundTo, Tile.mk.injEq]) hne
  · norm_num [havL1]

end AutoFund
